import Mathlib

/-!
Shallow embedding of the watchmon acquisition pipeline, translated from
src/app/watch.go: the record/table data model, the two output parsers, the
value extractor, Source.pull, the cycle join and the staleness gate.

Modelling conventions:
* Go maps (map[string]string, the records map, the snapshot sync.Map) are
  association lists; assignment overwrites an existing binding in place and
  otherwise appends, which preserves Go's lookup semantics.
* Runtime panics (index out of range in table.zip, slicing res[1:] on an
  empty slice) are modelled explicitly: Option results where none is a
  panic, and the GoResult type with an explicit panicked outcome.
* float64 values produced by fmt.Sscanf are modelled as rationals over the
  decimal syntax the scanner accepts; the verbs exercised by the program
  and its tests (%f for the value, %s for labels, anything else failing to
  assign) are modelled, other verbs are treated as non-matching.
* Wall-clock instants are integers; time.Since(x) at instant now is now - x.
-/

namespace Watchmon

/-- Go record: one field-keyed row, map[string]string as an association list. -/
abbrev record := List (String × String)

/-- Positional table of cells, Go type table [][]string. -/
abbrev table := List (List String)

/-- Go records: map from record id to the ordered rows of that record. -/
abbrev RecordsMap := List (String × List record)

/-- One cycle's joined snapshot data: source id to that source's records. -/
abbrev SnapshotData := List (String × RecordsMap)

/-- Go map assignment m[k] = v: overwrite the binding in place when the key
is present, otherwise add the binding. -/
def setKV {α : Type} (m : List (String × α)) (k : String) (v : α) :
    List (String × α) :=
  if k ∈ m.map Prod.fst then
    m.map (fun p => if p.1 = k then (k, v) else p)
  else m ++ [(k, v)]

/-- Outcome of a Go call that can return a value, return an error, or panic. -/
inductive GoResult (α : Type) where
  | ok (val : α)
  | err (msg : String)
  | panicked
  deriving DecidableEq, Repr

/-- ParserRecordConfig: one record extraction spec of a source's output. -/
structure ParserRecordConfig where
  id : String
  firstLineIsHeader : Bool
  header : List String
  parserOptions : List (String × String)
  deriving DecidableEq, Repr

/-- SourceOutputConfig: parser kind plus the record extraction specs. -/
structure SourceOutputConfig where
  parser : String
  records : List ParserRecordConfig
  deriving DecidableEq, Repr

/-- SourceConfig: one source's identity, command line, deadline and output. -/
structure SourceConfig where
  id : String
  command : String
  timeout : Int
  output : SourceOutputConfig
  deriving DecidableEq, Repr

/-- MonitorValueLabelConfig: one label extraction rule. -/
structure MonitorValueLabelConfig where
  header : String
  format : String
  deriving DecidableEq, Repr

/-- MonitorValueConfig: a monitor's value rule, pointing into a snapshot. -/
structure MonitorValueConfig where
  sourceId : String
  recordId : String
  header : String
  format : String
  labels : List MonitorValueLabelConfig
  deriving DecidableEq, Repr

/-- MonitorConfig: metric identity plus the value rule. -/
structure MonitorConfig where
  id : String
  title : String
  kind : String
  value : MonitorValueConfig
  deriving DecidableEq, Repr

/-- Split a character list at every occurrence of the separator. -/
def splitListOn (sep : Char) : List Char → List (List Char)
  | [] => [[]]
  | c :: rest =>
    match splitListOn sep rest with
    | [] => [[]]
    | g :: gs => if c = sep then [] :: g :: gs else (c :: g) :: gs

/-- Strip the carriage return of a CRLF line ending. -/
def stripCR (l : List Char) : List Char :=
  if l.getLast? = some '\r' then l.dropLast else l

/-- Split raw input into csv lines: rows on newlines, carriage returns of CRLF
endings removed, fully blank lines skipped (encoding/csv behaviour). -/
def csvLines (input : String) : List (List Char) :=
  ((splitListOn '\n' input.toList).map stripCR).filter (fun l => l ≠ [])

/-- Leading-whitespace trim of one field (csv.Reader with TrimLeadingSpace). -/
def trimLeading (cs : List Char) : String :=
  String.mk (cs.dropWhile Char.isWhitespace)

/-- Go encoding/csv ReadAll with the given Comma and TrimLeadingSpace set, for
inputs free of quote characters: rows on newlines, fields on the delimiter,
every record must have the same field count as the first. -/
def csvReadAll (comma : Char) (input : String) : Except String table :=
  let rows := (csvLines input).map
    (fun l => (splitListOn comma l).map trimLeading)
  match rows with
  | [] => .ok []
  | r0 :: rest =>
    if rest.all (fun r => r.length = r0.length) then .ok (r0 :: rest)
    else .error ("record: wrong number of fields")

/-- Inner loop of table.zip: res[i][header[j]] = r[j] for every header index. -/
def buildRow (header cells : List String) : record :=
  (header.zip cells).foldl (fun r p => setKV r p.1 p.2) []

/-- table.zip from watch.go. none models a runtime panic: indexing r[j] past
the end of a row shorter than the header, or slicing res[1:] when the row
list is empty and skipFirstLine is set. -/
def table.zip (t : table) (header : List String) (skipFirstLine : Bool) :
    Option (List record) :=
  if t.all (fun r => header.length ≤ r.length) then
    if skipFirstLine then
      match t.map (buildRow header) with
      | [] => none
      | _ :: rest => some rest
    else some (t.map (buildRow header))
  else none

/-- The loop of csvParser.Parse over the source's record specs, threading the
records map being built. -/
def zipRecords (data : table) (specs : List ParserRecordConfig)
    (acc : RecordsMap) : GoResult RecordsMap :=
  match specs with
  | [] => .ok acc
  | r :: rest =>
    match table.zip data r.header r.firstLineIsHeader with
    | none => .panicked
    | some rows => zipRecords data rest (setKV acc r.id rows)

/-- csvParser.Parse from watch.go: the csv reader is configured with the fixed
comma character COLON and TrimLeadingSpace, then every record spec is zipped
against the same decoded table. -/
def csvParser.Parse (s : SourceConfig) (input : String) : GoResult RecordsMap :=
  match csvReadAll ':' input with
  | .error e => .err e
  | .ok data => zipRecords data s.output.records []

/-- Go map access with default: r.ParserOptions[k] yields the empty string
when the key is absent. -/
def optGet (opts : List (String × String)) (k : String) : String :=
  (List.lookup k opts).getD ""

/-- Insertion step of sorting option keys, as Go's fmt sorts map keys before
printing a map with the %+v verb. -/
def insortOpt (p : String × String) :
    List (String × String) → List (String × String)
  | [] => [p]
  | q :: rest =>
    if compare p.1 q.1 = Ordering.gt then q :: insortOpt p rest
    else p :: q :: rest

/-- Go fmt %+v rendering of a map[string]string: map[k1:v1 k2:v2] with the
keys in sorted order. -/
def fmtOptions (opts : List (String × String)) : String :=
  "map[" ++
    String.intercalate (" ")
      ((opts.foldr insortOpt []).map (fun p => p.1 ++ ":" ++ p.2)) ++ "]"

/-- The error htmlqueryParser.Parse returns when a record spec's format option
is missing or not equal to table. -/
def formatErrMsg (opts : List (String × String)) : String :=
  "htmlqueryParser: invalid parser option 'format': " ++ fmtOptions opts

/-- The error htmlqueryParser.parseFormatTable returns (wrapped by Parse) when
a record spec has no path option. -/
def pathErrMsg (opts : List (String × String)) : String :=
  "htmlqueryParser: invalid parser option 'path': " ++ fmtOptions opts

/-- The loop of htmlqueryParser.Parse over the record specs. The parsed
document is abstracted as the function doc from a query path to the cell
texts of the td-bearing tr rows under the selected node, which is what
parseFormatTable extracts with htmlquery.Find. -/
def htmlParseRecords (doc : String → table) (specs : List ParserRecordConfig)
    (acc : RecordsMap) : GoResult RecordsMap :=
  match specs with
  | [] => .ok acc
  | r :: rest =>
    if optGet r.parserOptions ("format") = "table" then
      match List.lookup ("path") r.parserOptions with
      | none => .err (pathErrMsg r.parserOptions)
      | some path =>
        match table.zip (doc path) r.header r.firstLineIsHeader with
        | none => .panicked
        | some rows => htmlParseRecords doc rest (setKV acc r.id rows)
    else .err (formatErrMsg r.parserOptions)

/-- htmlqueryParser.Parse from watch.go. -/
def htmlqueryParser.Parse (s : SourceConfig) (doc : String → table) :
    GoResult RecordsMap :=
  htmlParseRecords doc s.output.records []

/-- Split a scan format at its first verb: literal prefix, verb character and
the rest of the format. -/
def splitVerbAux : List Char → List Char → Option (List Char × Char × List Char)
  | [], _ => none
  | ['%'], _ => none
  | '%' :: v :: rest, pre => some (pre.reverse, v, rest)
  | c :: rest, pre => splitVerbAux rest (c :: pre)

/-- Drop leading whitespace of the unscanned input. -/
def skipWs (cs : List Char) : List Char :=
  cs.dropWhile Char.isWhitespace

/-- Literal segment matching of fmt scanning: whitespace in the format matches
any run of input whitespace, any other character must match exactly; yields
the unscanned rest of the input. -/
def matchLit : List Char → List Char → Option (List Char)
  | [], inp => some inp
  | c :: rest, inp =>
    if c.isWhitespace then matchLit rest (skipWs inp)
    else
      match inp with
      | [] => none
      | d :: dt => if d = c then matchLit rest dt else none

/-- Numeric value of a digit run. -/
def digitsToNat (ds : List Char) : Nat :=
  ds.foldl (fun n c => 10 * n + (c.toNat - 48)) 0

/-- The float token the fmt scanner accepts at the front of the input:
optional sign, integer digits, optional decimal point and fraction digits;
at least one digit is required. -/
def parseDecPrefix (cs : List Char) : Option ℚ :=
  let sgncs : ℚ × List Char :=
    match cs with
    | '-' :: t => (-1, t)
    | '+' :: t => (1, t)
    | _ => (1, cs)
  let intDs := sgncs.2.takeWhile Char.isDigit
  let rest := sgncs.2.dropWhile Char.isDigit
  match rest with
  | '.' :: t =>
    let fracDs := t.takeWhile Char.isDigit
    if intDs.isEmpty && fracDs.isEmpty then none
    else
      some (sgncs.1 *
        ((digitsToNat intDs : ℚ) + (digitsToNat fracDs : ℚ) / ((10 : ℚ) ^ fracDs.length)))
  | _ => if intDs.isEmpty then none else some (sgncs.1 * (digitsToNat intDs : ℚ))

/-- fmt.Sscanf with one float64 pointer argument: the value the scan assigns,
or none when the verb never assigns and the variable keeps its zero value.
A trailing literal mismatch after the verb has assigned does not undo the
assignment, so the rest of the format past the verb is irrelevant here. -/
def sscanfFloat (format input : String) : Option ℚ :=
  match splitVerbAux format.toList [] with
  | none => none
  | some (pre, verb, _) =>
    match matchLit pre input.toList with
    | none => none
    | some rest =>
      if verb = 'f' then parseDecPrefix (skipWs rest) else none

/-- fmt.Sscanf with one string pointer argument: the %s verb takes the next
whitespace-delimited token, failing on an empty token. -/
def sscanfString (format input : String) : Option String :=
  match splitVerbAux format.toList [] with
  | none => none
  | some (pre, verb, _) =>
    match matchLit pre input.toList with
    | none => none
    | some rest =>
      if verb = 's' then
        let tok := (skipWs rest).takeWhile (fun c => !c.isWhitespace)
        if tok.isEmpty then none else some (String.mk tok)
      else none

/-- One ephemeral gauge write: label values plus numeric value. -/
structure metric where
  labels : List String
  value : ℚ
  deriving DecidableEq, Repr

/-- record.value from watch.go: the value extractor. The scanned value starts
at zero and is only changed by a successful scan of the target field; each
label starts empty and is only changed when its field is present. -/
def record.value (r : record) (c : MonitorValueConfig) : metric :=
  let val : ℚ :=
    match List.lookup c.header r with
    | some v => (sscanfFloat c.format v).getD 0
    | none => 0
  let ll := c.labels.map (fun k =>
    match List.lookup k.header r with
    | some v => if k.format ≠ "" then (sscanfString k.format v).getD "" else v
    | none => "")
  ⟨ll, val⟩

/-- Monitor.push: one gauge write per row of the record, in row order, tagged
with the monitor's id. -/
def Monitor.push (m : MonitorConfig) (rr : List record) :
    List (String × metric) :=
  rr.map (fun r => (m.id, record.value r m.value))

/-- The gauge writes one monitor performs for one applied snapshot: look up
its source id, then its record id; if either is absent the monitor writes
nothing this cycle. -/
def monitorWrites (snap : SnapshotData) (m : MonitorConfig) :
    List (String × metric) :=
  match List.lookup m.value.sourceId snap with
  | none => []
  | some recs =>
    match List.lookup m.value.recordId recs with
    | none => []
    | some rows => Monitor.push m rows

/-- The dispatch loop of WatchService.Start over all monitors. -/
def dispatch (monitors : List MonitorConfig) (snap : SnapshotData) :
    List (String × metric) :=
  (monitors.map (monitorWrites snap)).flatten

/-- A Source: its config, the attached Command runner (none models a nil
command; some carries Execute's outcome) and the attached parser's Parse
as a function of the command output. -/
structure Source where
  c : SourceConfig
  command : Option (Except String String)
  parser : String → GoResult RecordsMap

/-- Source.pull from watch.go: fail fast on a nil command, then run the
command, then hand its output to the parser. -/
def Source.pull (s : Source) : GoResult RecordsMap :=
  match s.command with
  | none => .err ("source: undefined command")
  | some (.error e) => .err e
  | some (.ok output) => s.parser output

/-- The fan-out/join of one fetch cycle: every source pulls, a successful pull
stores its records under the source id, a failed pull stores nothing. none
models a pull that panicked, which would crash the process. -/
def fetchCycleAux (acc : SnapshotData) : List Source → Option SnapshotData
  | [] => some acc
  | s :: rest =>
    match Source.pull s with
    | .ok recs => fetchCycleAux (setKV acc s.c.id recs) rest
    | .err _ => fetchCycleAux acc rest
    | .panicked => none

/-- The joined snapshot of one fetch cycle across all sources. -/
def fetchCycle (sources : List Source) : Option SnapshotData :=
  fetchCycleAux [] sources

/-- Whether a source's pull succeeds and therefore stores a snapshot entry. -/
def pullOk (s : Source) : Bool :=
  match Source.pull s with
  | .ok _ => true
  | _ => false

/-- The staleness gate's shared state: the last-applied capture timestamp. -/
structure GateState where
  latest : Int
  deriving DecidableEq, Repr

/-- One completed cycle's message: joined data plus the capture timestamp
taken when the cycle was dispatched. -/
structure SnapshotMsg where
  data : SnapshotData
  updated : Int

/-- The staleness gate and dispatch of WatchService.Start for one received
cycle: time.Since(latest) is evaluated at instant now1 and
time.Since(updated) at instant now2 (the code reads the clock twice, in that
order). A stale candidate is dropped whole: no writes, state unchanged.
Otherwise every monitor is dispatched and the last-applied timestamp becomes
the candidate's capture time. -/
def handleSnapshot (monitors : List MonitorConfig) (st : GateState)
    (msg : SnapshotMsg) (now1 now2 : Int) :
    List (String × metric) × GateState :=
  if now1 - st.latest < now2 - msg.updated then
    ([], st)
  else
    (dispatch monitors msg.data, ⟨msg.updated⟩)

/-- Fixture: a monitor reading field h of record r of source s as a plain
float, with no labels. -/
def monEx : MonitorConfig := ⟨"m", "", "gauge", ⟨"s", "r", "h", "%f", []⟩⟩

/-- Fixture: snapshot data holding one row for monEx to read. -/
def snapEx : SnapshotData := [("s", [("r", [[("h", "1")]])])]

/-- Fixture: a value rule with one unformatted label. -/
def cEx : MonitorValueConfig := ⟨"s", "r", "h", "%f", [⟨"l", ""⟩]⟩

/-- Fixture: a row whose h field does not scan as a float. -/
def rScanFailEx : record := [("h", "abc")]

/-- Fixture: a source whose pull succeeds with one record r. -/
def srcOkEx : Source :=
  ⟨⟨"a", "cmd", 0, ⟨"csv", []⟩⟩, some (.ok ("out")),
    fun _ => .ok [("r", [[("h", "1")]])]⟩

/-- Fixture: a source whose command execution fails. -/
def srcBadEx : Source :=
  ⟨⟨"b", "cmd", 0, ⟨"csv", []⟩⟩, some (.error ("boom")), fun _ => .ok []⟩

/-- Fixture: a monitor pointing at the failing source srcBadEx. -/
def monBadEx : MonitorConfig := ⟨"mb", "", "gauge", ⟨"b", "r", "h", "%f", []⟩⟩

/-- Fixture: the delimited-table source of the round-trip property. -/
def wifiSrcEx : SourceConfig :=
  ⟨"s", "", 0, ⟨"csv", [⟨"wifi", false, ["signal", "ssid"], []⟩]⟩⟩

/-- Modelled from the spec: the delimited-table variant's configurable
single-character delimiter, read from the record spec's options under the
separator key, defaulting to the colon character. The code under
src/app/watch.go never reads such an option. -/
def specDelimChar (opts : List (String × String)) : Char :=
  match List.lookup ("separator") opts with
  | some s =>
    match s.toList with
    | [ch] => ch
    | _ => ':'
  | none => ':'

/-- Modelled from the spec: per-record-spec delimited parsing with the
configurable delimiter of specDelimChar, zipped like the code's variant. -/
def csvConfigAux (input : String) (specs : List ParserRecordConfig)
    (acc : RecordsMap) : GoResult RecordsMap :=
  match specs with
  | [] => .ok acc
  | r :: rest =>
    match csvReadAll (specDelimChar r.parserOptions) input with
    | .error e => .err e
    | .ok data =>
      match table.zip data r.header r.firstLineIsHeader with
      | none => .panicked
      | some rows => csvConfigAux input rest (setKV acc r.id rows)

/-- Modelled from the spec: the delimited-table parser as the spec words it,
with a per-spec configurable delimiter. -/
def csvParseConfigurable (s : SourceConfig) (input : String) :
    GoResult RecordsMap :=
  csvConfigAux input s.output.records []

/-- Rewrite every record spec's parser options through f, leaving id, header
and the header flag unchanged. -/
def mapRecOptions (f : List (String × String) → List (String × String))
    (s : SourceConfig) : SourceConfig :=
  ⟨s.id, s.command, s.timeout,
    ⟨s.output.parser,
      s.output.records.map
        (fun r => ⟨r.id, r.firstLineIsHeader, r.header, f r.parserOptions⟩)⟩⟩

/-- Fixture: a delimited-table source whose record spec asks for the
semicolon delimiter through the separator option. -/
def srcSepEx : SourceConfig :=
  ⟨"src", "cmd", 0, ⟨"csv", [⟨"w", false, ["x", "y"], [("separator", ";")]⟩]⟩⟩

/-- Fixture: a markup record spec with no options at all. -/
def specBadFmtEx : ParserRecordConfig := ⟨"d", false, [], []⟩

/-- Fixture: a markup source whose only record spec lacks the format option. -/
def srcBadFmtEx : SourceConfig := ⟨"s", "", 0, ⟨"htmlquery", [specBadFmtEx]⟩⟩

/-- Fixture: a markup record spec with format table but no path option. -/
def specNoPathEx : ParserRecordConfig := ⟨"d", false, [], [("format", "table")]⟩

/-- Fixture: a markup source whose only record spec lacks the path option. -/
def srcNoPathEx : SourceConfig := ⟨"s", "", 0, ⟨"htmlquery", [specNoPathEx]⟩⟩

/-- Fixture: a parsed document with no rows under any path. -/
def docEmptyEx : String → table := fun _ => []

/-- Fixture: a delimited-table source with an empty header and the first-line
header flag set. -/
def srcEmptyHeadEx : SourceConfig := ⟨"s", "", 0, ⟨"csv", [⟨"d", true, [], []⟩]⟩⟩

/-- Fixture: a markup record spec whose header is longer than the table rows
the document yields. -/
def specShortEx : ParserRecordConfig :=
  ⟨"d", false, ["a", "b"], [("format", "table"), ("path", "//t")]⟩

/-- Fixture: a markup source around specShortEx. -/
def srcShortEx : SourceConfig := ⟨"s", "", 0, ⟨"htmlquery", [specShortEx]⟩⟩

/-- Fixture: a parsed document yielding one one-cell row under every path. -/
def docShortEx : String → table := fun _ => [["c"]]

/-- Fixture: a delimited-table source with the first-line header flag set. -/
def srcFlagEx : SourceConfig := ⟨"s", "", 0, ⟨"csv", [⟨"d", true, ["h"], []⟩]⟩⟩

/-- Fixture: the markup record spec of srcHtmlFlagEx. -/
def specHtmlFlagEx : ParserRecordConfig :=
  ⟨"d", true, ["h"], [("format", "table"), ("path", "//t")]⟩

/-- Fixture: a markup source with the first-line header flag set. -/
def srcHtmlFlagEx : SourceConfig :=
  ⟨"s", "", 0, ⟨"htmlquery", [specHtmlFlagEx]⟩⟩

end Watchmon

namespace Watchmon

/-- List.lookup misses exactly when the key is not among the keys. -/
theorem lookup_eq_none_iff {β : Type} (k : String) (m : List (String × β)) :
    List.lookup k m = none ↔ k ∉ m.map Prod.fst := by
  induction m with
  | nil => simp [List.lookup]
  | cons p rest ih =>
    obtain ⟨a, b⟩ := p
    by_cases h : k = a
    · subst h
      simp [List.lookup]
    · have hb : (k == a) = false := beq_eq_false_iff_ne.mpr h
      simp [List.lookup, hb, ih, h]

/-- Go map assignment of a fresh key appends the binding. -/
theorem setKV_not_mem {α : Type} (m : List (String × α)) (k : String) (v : α)
    (h : k ∉ m.map Prod.fst) : setKV m k v = m ++ [(k, v)] := by
  simp [setKV, h]

/-- C1 counterexample: a candidate whose capture time equals the last-applied
capture time (so its staleness is not less than the applied one's) is NOT
discarded: the gate applies it and monitor pushes do occur. -/
theorem c1_counterexample :
    (0 : Int) ≤ (0 : Int) ∧
    (handleSnapshot [monEx] ⟨0⟩ ⟨snapEx, 0⟩ 0 0).1 ≠ [] := by decide

/-- C1 (amended): for every applied snapshot time t_A and candidate captured
at t_B strictly before t_A, the staleness gate discards the candidate
entirely: no monitor push occurs and the last-applied timestamp is
unchanged. (At t_B = t_A the code applies the candidate, so the bound is
strict, not the claimed t_B ≤ t_A.) -/
theorem c1_stale_snapshot_discarded (monitors : List MonitorConfig)
    (st : GateState) (msg : SnapshotMsg) (now1 now2 : Int)
    (hmono : now1 ≤ now2) (hstrict : msg.updated < st.latest) :
    handleSnapshot monitors st msg now1 now2 = ([], st) := by
  unfold handleSnapshot
  rw [if_pos (by omega)]

/-- Witness for c1_stale_snapshot_discarded at a concrete strictly-older
candidate. -/
theorem c1_witness :
    (0 : Int) ≤ 0 ∧ (-1 : Int) < 0 ∧
    handleSnapshot [monEx] ⟨0⟩ ⟨snapEx, -1⟩ 0 0 = ([], ⟨0⟩) :=
  ⟨le_refl 0, by decide,
    c1_stale_snapshot_discarded [monEx] ⟨0⟩ ⟨snapEx, -1⟩ 0 0 (le_refl 0)
      (by decide)⟩

/-- C2: extraction never fails: a row lacking the target field extracts value
zero; a present field whose scan does not match extracts value zero; a label
whose field is missing extracts the empty string. -/
theorem c2_extraction_never_fails (r : record) (c : MonitorValueConfig) :
    (List.lookup c.header r = none → (record.value r c).value = 0) ∧
    (∀ v, List.lookup c.header r = some v → sscanfFloat c.format v = none →
      (record.value r c).value = 0) ∧
    (∀ (i : Nat) (hi : i < c.labels.length),
      List.lookup (c.labels[i].header) r = none →
      (record.value r c).labels[i]? = some "") := by
  refine ⟨?_, ?_, ?_⟩
  · intro h
    simp [record.value, h]
  · intro v hv hs
    simp [record.value, hv, hs]
  · intro i hi hmiss
    have hmap : (record.value r c).labels
        = c.labels.map (fun k =>
            match List.lookup k.header r with
            | some v =>
              if k.format ≠ "" then (sscanfString k.format v).getD "" else v
            | none => "") := rfl
    rw [hmap, List.getElem?_map, List.getElem?_eq_getElem hi]
    simp [hmiss]

/-- Witness for c2_extraction_never_fails: missing field, failed scan and
missing label field, each at a concrete input. -/
theorem c2_witness :
    (record.value [] cEx).value = 0 ∧
    (record.value rScanFailEx cEx).value = 0 ∧
    (record.value [] cEx).labels[0]? = some "" :=
  ⟨(c2_extraction_never_fails [] cEx).1 rfl,
    (c2_extraction_never_fails rScanFailEx cEx).2.1 ("abc") rfl rfl,
    (c2_extraction_never_fails [] cEx).2.2 0 (by decide) rfl⟩

/-- The join of a fetch cycle, with no panicking pull, fresh ids and pairwise
distinct ids, succeeds and its keys are the accumulator's keys followed by
the ids of exactly the successfully pulling sources, in order. -/
theorem fetchCycleAux_spec (ss : List Source) : ∀ acc : SnapshotData,
    (∀ s ∈ ss, Source.pull s ≠ .panicked) →
    (∀ s ∈ ss, s.c.id ∉ acc.map Prod.fst) →
    (ss.map (fun s => s.c.id)).Nodup →
    ∃ snap, fetchCycleAux acc ss = some snap ∧
      snap.map Prod.fst
        = acc.map Prod.fst ++ (ss.filter pullOk).map (fun s => s.c.id) := by
  induction ss with
  | nil =>
    intro acc _ _ _
    exact ⟨acc, rfl, by simp⟩
  | cons s rest ih =>
    intro acc hnp hdisj hnd
    have hnd2 : (s.c.id :: rest.map (fun y => y.c.id)).Nodup := by
      simpa only [List.map_cons] using hnd
    have hndc := List.nodup_cons.mp hnd2
    cases hp : Source.pull s with
    | panicked => exact absurd hp (hnp s (List.mem_cons_self s rest))
    | err e =>
      obtain ⟨snap, h1, h2⟩ := ih acc
        (fun x hx => hnp x (List.mem_cons_of_mem s hx))
        (fun x hx => hdisj x (List.mem_cons_of_mem s hx)) hndc.2
      refine ⟨snap, ?_, ?_⟩
      · simp only [fetchCycleAux]
        rw [hp]
        exact h1
      · have hko : pullOk s = false := by simp [pullOk, hp]
        rw [h2, List.filter_cons, hko]
        simp
    | ok recs =>
      have hmem : s.c.id ∉ acc.map Prod.fst := hdisj s (List.mem_cons_self s rest)
      have hset := setKV_not_mem acc s.c.id recs hmem
      obtain ⟨snap, h1, h2⟩ := ih (setKV acc s.c.id recs)
        (fun x hx => hnp x (List.mem_cons_of_mem s hx))
        (fun x hx => by
          rw [hset, List.map_append]
          intro hmem2
          rcases List.mem_append.mp hmem2 with hA | hB
          · exact hdisj x (List.mem_cons_of_mem s hx) hA
          · have hB2 : x.c.id = s.c.id := by simpa using hB
            have hx2 : s.c.id ∈ rest.map (fun y => y.c.id) :=
              hB2 ▸ List.mem_map_of_mem (fun y => y.c.id) hx
            exact hndc.1 hx2)
        hndc.2
      refine ⟨snap, ?_, ?_⟩
      · simp only [fetchCycleAux]
        rw [hp]
        exact h1
      · have hko : pullOk s = true := by simp [pullOk, hp]
        rw [h2, hset, List.filter_cons, hko]
        simp

/-- C3: in a cycle where one source's pull fails and the rest succeed (all
ids pairwise distinct), the joined snapshot holds exactly the successful
source ids; any monitor pointing at the failed source id, or at a record
id absent from its source's entry, performs no gauge write that cycle. -/
theorem c3_failed_source_isolated (pre post : List Source) (bad : Source)
    (e : String)
    (hids : ((pre ++ bad :: post).map (fun s => s.c.id)).Nodup)
    (hbad : Source.pull bad = .err e)
    (hok : ∀ s, s ∈ pre ∨ s ∈ post → ∃ rs, Source.pull s = .ok rs) :
    (fetchCycle (pre ++ bad :: post)).map (fun snap => snap.map Prod.fst)
        = some ((pre ++ post).map (fun s => s.c.id)) ∧
    (∀ (snap : SnapshotData) (m : MonitorConfig),
      fetchCycle (pre ++ bad :: post) = some snap →
      (m.value.sourceId = bad.c.id → monitorWrites snap m = []) ∧
      (∀ recs, List.lookup m.value.sourceId snap = some recs →
        List.lookup m.value.recordId recs = none →
        monitorWrites snap m = [])) := by
  have hnp : ∀ s ∈ pre ++ bad :: post, Source.pull s ≠ .panicked := by
    intro s hs
    rcases List.mem_append.mp hs with h | h
    · obtain ⟨rs, hrs⟩ := hok s (Or.inl h)
      simp [hrs]
    · rcases List.mem_cons.mp h with h | h
      · subst h
        simp [hbad]
      · obtain ⟨rs, hrs⟩ := hok s (Or.inr h)
        simp [hrs]
  obtain ⟨snap, h1, h2⟩ :=
    fetchCycleAux_spec (pre ++ bad :: post) [] hnp (by simp) hids
  have hfil : (pre ++ bad :: post).filter pullOk = pre ++ post := by
    have hb : pullOk bad = false := by simp [pullOk, hbad]
    have hpre : pre.filter pullOk = pre :=
      List.filter_eq_self.mpr (fun s hs => by
        obtain ⟨rs, hrs⟩ := hok s (Or.inl hs)
        simp [pullOk, hrs])
    have hpost : post.filter pullOk = post :=
      List.filter_eq_self.mpr (fun s hs => by
        obtain ⟨rs, hrs⟩ := hok s (Or.inr hs)
        simp [pullOk, hrs])
    rw [List.filter_append, List.filter_cons, hb, hpre]
    simp [hpost]
  have hkeys : snap.map Prod.fst = (pre ++ post).map (fun s => s.c.id) := by
    rw [h2, hfil]
    simp
  have hbadid : bad.c.id ∉ (pre ++ post).map (fun s => s.c.id) := by
    have hsplit : (pre ++ bad :: post).map (fun s => s.c.id)
        = pre.map (fun s => s.c.id)
          ++ bad.c.id :: post.map (fun s => s.c.id) := by simp
    rw [hsplit] at hids
    obtain ⟨hA, hBC, hdisj⟩ := List.nodup_append.mp hids
    intro hmem
    rw [List.map_append] at hmem
    rcases List.mem_append.mp hmem with hA2 | hB2
    · exact hdisj hA2 (List.mem_cons_self bad.c.id _)
    · exact (List.nodup_cons.mp hBC).1 hB2
  constructor
  · rw [fetchCycle, h1]
    exact congrArg some hkeys
  · intro snap1 m hsnap1
    rw [fetchCycle] at hsnap1
    rw [h1] at hsnap1
    have hsnapeq : snap1 = snap := (Option.some.inj hsnap1).symm
    subst hsnapeq
    constructor
    · intro hm
      have hnone : List.lookup m.value.sourceId snap1 = none := by
        rw [hm]
        exact (lookup_eq_none_iff bad.c.id snap1).mpr (hkeys ▸ hbadid)
      simp [monitorWrites, hnone]
    · intro recs hr hnone
      simp [monitorWrites, hr, hnone]

/-- Witness for c3_failed_source_isolated on a two-source cycle where the
second source fails. -/
theorem c3_witness :
    (fetchCycle [srcOkEx, srcBadEx]).map (fun snap => snap.map Prod.fst)
        = some ([srcOkEx].map (fun s => s.c.id)) ∧
    monitorWrites [("a", [("r", [[("h", "1")]])])] monBadEx = [] := by
  have h := c3_failed_source_isolated [srcOkEx] [] srcBadEx ("boom")
    (by decide) rfl
    (fun s hs => by
      rcases hs with hs | hs
      · rcases List.mem_singleton.mp hs with rfl
        exact ⟨[("r", [[("h", "1")]])], rfl⟩
      · exact absurd hs (List.not_mem_nil s))
  exact ⟨h.1, ((h.2 [("a", [("r", [[("h", "1")]])])] monBadEx rfl).1 rfl)⟩

/-- C5: pull on a Source with no attached command runner fails immediately
with the distinguished undefined-command error, for every config and every
parser: no record mapping is produced and neither collaborator affects the
result. -/
theorem c5_undefined_command (c : SourceConfig)
    (p : String → GoResult RecordsMap) :
    Source.pull ⟨c, none, p⟩ = .err ("source: undefined command") := rfl

/-- The zip loop over record specs never reads the specs' parser options. -/
theorem zipRecords_map_options (data : table)
    (f : List (String × String) → List (String × String))
    (specs : List ParserRecordConfig) (acc : RecordsMap) :
    zipRecords data
        (specs.map
          (fun r => ⟨r.id, r.firstLineIsHeader, r.header, f r.parserOptions⟩))
        acc
      = zipRecords data specs acc := by
  induction specs generalizing acc with
  | nil => rfl
  | cons r rest ih =>
    simp only [List.map_cons, zipRecords]
    cases table.zip data r.header r.firstLineIsHeader with
    | none => rfl
    | some rows => exact ih _

/-- C4 counterexample: a record spec supplying the semicolon through the
separator option still has its fields split on the fixed colon, not on the
configured character: the code's parse and the spec-worded configurable
parse disagree on input a:b;c. -/
theorem c4_counterexample :
    csvParser.Parse srcSepEx ("a:b;c") =
      .ok [("w", [[("x", "a"), ("y", "b;c")]])] ∧
    csvParseConfigurable srcSepEx ("a:b;c") =
      .ok [("w", [[("x", "a:b"), ("y", "c")]])] ∧
    csvParser.Parse srcSepEx ("a:b;c") ≠
      csvParseConfigurable srcSepEx ("a:b;c") :=
  ⟨by decide, by decide, by decide⟩

/-- C4 (amended): the delimited-table parser splits rows on newlines and
fields on the fixed colon delimiter with leading whitespace trimmed; the
delimiter is not configurable: rewriting every record spec's parser options
arbitrarily never changes the parse result. -/
theorem c4_amended_options_ignored
    (f : List (String × String) → List (String × String))
    (s : SourceConfig) (input : String) :
    csvParser.Parse (mapRecOptions f s) input = csvParser.Parse s input := by
  unfold csvParser.Parse mapRecOptions
  cases csvReadAll ':' input with
  | error e => rfl
  | ok data => exact zipRecords_map_options data f s.output.records []

/-- The two configuration error messages of the markup parser differ for
every option map: their literal prefixes have different lengths. -/
theorem formatErr_ne_pathErr (opts : List (String × String)) :
    formatErrMsg opts ≠ pathErrMsg opts := by
  intro h
  have hlen := congrArg String.length h
  rw [formatErrMsg, pathErrMsg, String.length_append, String.length_append]
    at hlen
  have hne : ("htmlqueryParser: invalid parser option 'format': ").length ≠
      ("htmlqueryParser: invalid parser option 'path': ").length := by decide
  omega

/-- C6: a markup record spec whose options lack format equal to table fails
the whole parse with the named format error carrying the full option map; a
spec with format table but no path fails with the distinct named path error
carrying the full option map; both are errors, so no record mapping is
returned. -/
theorem c6_markup_config_errors (s : SourceConfig) (doc : String → table)
    (spec : ParserRecordConfig) (rest : List ParserRecordConfig)
    (hrec : s.output.records = spec :: rest) :
    (optGet spec.parserOptions ("format") ≠ "table" →
      htmlqueryParser.Parse s doc = .err (formatErrMsg spec.parserOptions)) ∧
    (optGet spec.parserOptions ("format") = "table" →
      List.lookup ("path") spec.parserOptions = none →
      htmlqueryParser.Parse s doc = .err (pathErrMsg spec.parserOptions)) ∧
    formatErrMsg spec.parserOptions ≠ pathErrMsg spec.parserOptions := by
  refine ⟨?_, ?_, formatErr_ne_pathErr spec.parserOptions⟩
  · intro h
    unfold htmlqueryParser.Parse
    rw [hrec]
    simp [htmlParseRecords, h]
  · intro hfmt hpath
    unfold htmlqueryParser.Parse
    rw [hrec]
    simp [htmlParseRecords, hfmt, hpath]

/-- Witness for c6_markup_config_errors at concrete sources, evaluating both
error messages to their literal strings. -/
theorem c6_witness :
    htmlqueryParser.Parse srcBadFmtEx docEmptyEx =
      .err ("htmlqueryParser: invalid parser option 'format': map[]") ∧
    htmlqueryParser.Parse srcNoPathEx docEmptyEx =
      .err ("htmlqueryParser: invalid parser option 'path': map[format:table]")
    := by
  have h1 := (c6_markup_config_errors srcBadFmtEx docEmptyEx specBadFmtEx []
    rfl).1 (by decide)
  have h2 := (c6_markup_config_errors srcNoPathEx docEmptyEx specNoPathEx []
    rfl).2.1 (by decide) (by decide)
  exact ⟨h1.trans (by decide), h2.trans (by decide)⟩

/-- Rows zipped against an empty header are empty field maps. -/
theorem map_buildRow_nil (t : table) :
    t.map (buildRow []) = t.map (fun _ => ([] : record)) :=
  List.map_congr_left (fun _ _ => rfl)

/-- C7 counterexample: a record spec with an empty header whose first-line
header flag is set panics the whole parse on input with no rows, refuting
that an empty-header spec never fails or panics. -/
theorem c7_counterexample :
    csvParser.Parse srcEmptyHeadEx ("") = .panicked := by decide

/-- C7 (amended): a record spec with an empty header yields rows that are
empty field maps, one per table row minus the first when the header flag is
set, and the zip never fails, provided the table is nonempty whenever the
header flag is set (with the flag set on an empty table the slice res[1:]
panics, as c7_counterexample shows). -/
theorem c7_empty_header_rows (t : table) (b : Bool)
    (h : b = false ∨ t ≠ []) :
    table.zip t [] b =
      some ((t.map (fun _ => ([] : record))).drop (if b then 1 else 0)) := by
  have hall : t.all (fun r => ([] : List String).length ≤ r.length) = true := by
    simp
  unfold table.zip
  rw [if_pos hall]
  cases b with
  | false => simp [map_buildRow_nil]
  | true =>
    rcases h with h | h
    · exact absurd h (by simp)
    · cases t with
      | nil => exact absurd rfl h
      | cons x xs =>
        simp only [List.map_cons, List.drop_succ_cons, List.drop_zero,
          if_pos]
        exact congrArg some (map_buildRow_nil xs)

/-- Witness for c7_empty_header_rows on a concrete two-row table. -/
theorem c7_witness : table.zip [["a"], ["b"]] [] true = some [[]] :=
  (c7_empty_header_rows [["a"], ["b"]] true (Or.inr (by decide))).trans
    (by decide)

/-- C8: the delimited-table round trip on the three wifi rows yields exactly
the three field-keyed rows, in order, under record id wifi. -/
theorem c8_round_trip :
    csvParser.Parse wifiSrcEx ("0:s0\n255:s1\n127:s2") =
      .ok [("wifi",
        [[("signal", "0"), ("ssid", "s0")],
         [("signal", "255"), ("ssid", "s1")],
         [("signal", "127"), ("ssid", "s2")]])] := by decide

/-- C9: for the markup parser, a selected table row with at least one cell
but fewer cells than the record spec's header makes the zip index past the
row's end: the parse panics instead of returning an error or padding. -/
theorem c9_short_row_panics (s : SourceConfig) (doc : String → table)
    (spec : ParserRecordConfig) (rest : List ParserRecordConfig)
    (p : String) (row : List String)
    (hrec : s.output.records = spec :: rest)
    (hfmt : optGet spec.parserOptions ("format") = "table")
    (hpath : List.lookup ("path") spec.parserOptions = some p)
    (hrow : row ∈ doc p) (_hlen1 : 1 ≤ row.length)
    (hlen2 : row.length < spec.header.length) :
    htmlqueryParser.Parse s doc = .panicked := by
  have hnall :
      ¬ ((doc p).all (fun r => spec.header.length ≤ r.length) = true) := by
    intro hall
    have hle := of_decide_eq_true (List.all_eq_true.mp hall row hrow)
    omega
  have hz : table.zip (doc p) spec.header spec.firstLineIsHeader = none := by
    unfold table.zip
    rw [if_neg hnall]
  unfold htmlqueryParser.Parse
  rw [hrec]
  simp [htmlParseRecords, hfmt, hpath, hz]

/-- Witness for c9_short_row_panics: a one-cell row under a two-entry
header panics the markup parse. -/
theorem c9_witness : htmlqueryParser.Parse srcShortEx docShortEx = .panicked :=
  c9_short_row_panics srcShortEx docShortEx specShortEx [] ("//t") ["c"] rfl
    (by decide) (by decide) (by decide) (by decide) (by decide)

/-- The zip loop over record specs panics on an empty table as soon as any
spec sets the first-line header flag. -/
theorem zipRecords_empty_table (specs : List ParserRecordConfig) :
    ∀ acc : RecordsMap,
      (∃ spec ∈ specs, spec.firstLineIsHeader = true) →
      zipRecords [] specs acc = .panicked := by
  induction specs with
  | nil =>
    intro acc h
    obtain ⟨x, hx, _⟩ := h
    exact absurd hx (List.not_mem_nil x)
  | cons r rest ih =>
    intro acc h
    cases hflag : r.firstLineIsHeader with
    | true =>
      have hz : table.zip [] r.header true = none := rfl
      simp only [zipRecords]
      rw [hflag, hz]
    | false =>
      have hz : table.zip [] r.header false = some [] := rfl
      obtain ⟨spec, hmem, hsp⟩ := h
      have hmem2 : spec ∈ rest := by
        rcases List.mem_cons.mp hmem with h1 | h1
        · subst h1
          rw [hflag] at hsp
          exact absurd hsp (by simp)
        · exact h1
      simp only [zipRecords]
      rw [hflag, hz]
      exact ih _ ⟨spec, hmem2, hsp⟩

/-- C10: for both parser variants, a record spec with the first-line header
flag set, applied to an input producing zero table rows, panics (slicing the
first element off an empty row list) instead of yielding zero rows or an
error. -/
theorem c10_header_flag_empty_table_panics :
    (∀ (s : SourceConfig) (input : String) (spec : ParserRecordConfig),
      spec ∈ s.output.records → spec.firstLineIsHeader = true →
      csvReadAll ':' input = .ok [] →
      csvParser.Parse s input = .panicked) ∧
    (∀ (s : SourceConfig) (doc : String → table) (spec : ParserRecordConfig)
      (rest : List ParserRecordConfig) (p : String),
      s.output.records = spec :: rest → spec.firstLineIsHeader = true →
      optGet spec.parserOptions ("format") = "table" →
      List.lookup ("path") spec.parserOptions = some p →
      doc p = [] →
      htmlqueryParser.Parse s doc = .panicked) := by
  constructor
  · intro s input spec hmem hflag hread
    unfold csvParser.Parse
    rw [hread]
    exact zipRecords_empty_table s.output.records [] ⟨spec, hmem, hflag⟩
  · intro s doc spec rest p hrec hflag hfmt hpath hdoc
    have hz : table.zip (doc p) spec.header spec.firstLineIsHeader = none := by
      rw [hdoc, hflag]
      rfl
    unfold htmlqueryParser.Parse
    rw [hrec]
    simp [htmlParseRecords, hfmt, hpath, hz]

/-- Witness for c10_header_flag_empty_table_panics: empty input panics the
delimited parse, and an empty selected table panics the markup parse, under
a header-flagged record spec. -/
theorem c10_witness :
    csvParser.Parse srcFlagEx ("") = .panicked ∧
    htmlqueryParser.Parse srcHtmlFlagEx docEmptyEx = .panicked :=
  ⟨c10_header_flag_empty_table_panics.1 srcFlagEx ("") ⟨"d", true, ["h"], []⟩
      (by decide) rfl rfl,
    c10_header_flag_empty_table_panics.2 srcHtmlFlagEx docEmptyEx
      specHtmlFlagEx [] ("//t") rfl rfl (by decide) (by decide) rfl⟩

end Watchmon
